import Mathlib

/-!
Verification of the personal-finance dashboard pipeline.

Shallow embedding of the transaction pipeline of `app.py` and the trend
predictor of `finance_analysis.py`.  Amounts are modelled as exact rationals
(the Python code computes with floats; every claim under review is about
exact arithmetic relations, and the inputs exercised are small integers, so
`ℚ` is the faithful idealisation).  A parsed timestamp is modelled as an
optional `Date`: `pd.to_datetime(..., errors="coerce")` followed by
`dropna` is embedded as "rows whose `datetime` is `none` are dropped".
-/

namespace FMS

/-- A calendar-month key: the `(year, month)` pair produced by
`dt.to_period("M")`.  pandas renders it as the string `"YYYY-MM"` and sorts
groups by that string; for four-digit years that order coincides with the
lexicographic order on `(year, month)`, which is the order used here. -/
abbrev Month := ℕ ×ₗ ℕ

/-- Make a month key from a year and a month number. -/
def mkMonth (y m : ℕ) : Month := toLex (y, m)

/-- A parsed calendar date (the result of a successful `pd.to_datetime`). -/
structure Date where
  year : ℕ
  month : ℕ
  day : ℕ
deriving DecidableEq

/-- One row of the uploaded CSV after timestamp coercion.  `datetime` is
`none` when the cell failed to parse (`errors="coerce"` turns it into
`NaT`).  `category` and `merchant` hold the cell text; whether those
optional columns exist at all is recorded on `Table`. -/
structure Row where
  datetime : Option Date
  amount : ℚ
  type : String
  category : String
  merchant : String
deriving DecidableEq

/-- The uploaded table: its rows plus which optional columns are present. -/
structure Table where
  rows : List Row
  hasCategory : Bool
  hasMerchant : Bool

/-- `df["type"].str.upper()` applied to one cell: uppercase every
character.  (`String.toUpper` itself is defined through `String.mapAux`,
which the kernel cannot reduce; mapping over the character list is the
same function and evaluates.) -/
def strUpper (s : String) : String := ⟨s.data.map Char.toUpper⟩

/-- `df = df.dropna(subset=["datetime"])`: keep rows whose timestamp parsed. -/
def validRows (t : Table) : List Row :=
  t.rows.filter (fun r => r.datetime.isSome)

/-- `income_df = df[df["type"] == "CREDIT"]` (after `df["type"].str.upper()`). -/
def income_df (t : Table) : List Row :=
  (validRows t).filter (fun r => strUpper r.type = "CREDIT")

/-- `expense_df = df[df["type"] == "DEBIT"]` (after `df["type"].str.upper()`). -/
def expense_df (t : Table) : List Row :=
  (validRows t).filter (fun r => strUpper r.type = "DEBIT")

/-- `total_income = income_df["amount"].sum()`. -/
def total_income (t : Table) : ℚ :=
  ((income_df t).map Row.amount).sum

/-- `total_expense = expense_df["amount"].sum()`. -/
def total_expense (t : Table) : ℚ :=
  ((expense_df t).map Row.amount).sum

/-- `total_expense_abs = abs(total_expense)`. -/
def total_expense_abs (t : Table) : ℚ :=
  |total_expense t|

/-- `savings = total_income - total_expense_abs`. -/
def savings (t : Table) : ℚ :=
  total_income t - total_expense_abs t

/-- `expense_df["month"] = expense_df["datetime"].dt.to_period("M")`:
the month key of a row.  Only ever applied to rows of `expense_df`, whose
`datetime` is `some`; the default date is never reached. -/
def rowMonth (r : Row) : Month :=
  mkMonth (r.datetime.getD ⟨0, 0, 0⟩).year (r.datetime.getD ⟨0, 0, 0⟩).month

/-- The group keys of `expense_df.groupby("month")`: the distinct month
keys of the expense rows, in ascending order (pandas `groupby` sorts its
group keys). -/
def monthKeys (t : Table) : List Month :=
  List.insertionSort (fun a b => a ≤ b) (((expense_df t).map rowMonth).dedup)

/-- One group's aggregate: `.groupby("month")["amount"].sum().abs()` —
the absolute value of the sum of the month's amounts. -/
def monthTotal (t : Table) (m : Month) : ℚ :=
  |(((expense_df t).filter (fun r => rowMonth r = m)).map Row.amount).sum|

/-- The `monthly` frame with columns `["month", "total_expense"]`:
one bucket per distinct month, in ascending key order (pandas `groupby`
sorts its group keys). -/
def monthly (t : Table) : List (Month × ℚ) :=
  (monthKeys t).map (fun m => (m, monthTotal t m))

end FMS

namespace FMS

/-! ## `finance_analysis.predict_next_month`

The code builds `month_index = arange(n)`, fits sklearn's
`LinearRegression` (ordinary least squares) of `total_expense` against
`month_index`, predicts at `max(month_index) + 1 = n`, and rounds to two
decimals.  The closed-form OLS coefficients over exact rationals embed the
fit; `round2` embeds Python's `round(x, 2)` (Python rounds float ties to
even; `round2` rounds ties up — the two agree away from exact half-cent
values, and no input under review sits on one). -/

/-- `round(x, 2)`: round to two decimal places. -/
def round2 (q : ℚ) : ℚ :=
  (round (q * 100) : ℤ) / 100

/-- `Σ_{i<n} i`, the sum of the regressor values. -/
def sumX (n : ℕ) : ℚ := ∑ i in Finset.range n, (i : ℚ)

/-- `Σ_{i<n} i²`. -/
def sumXX (n : ℕ) : ℚ := ∑ i in Finset.range n, (i : ℚ) ^ 2

/-- `Σ_{i<n} yᵢ`. -/
def sumY (ys : List ℚ) : ℚ := ∑ i in Finset.range ys.length, ys.getD i 0

/-- `Σ_{i<n} i·yᵢ`. -/
def sumXY (ys : List ℚ) : ℚ :=
  ∑ i in Finset.range ys.length, (i : ℚ) * ys.getD i 0

/-- The OLS slope `a` of `y` against indices `0..n-1` (closed form). -/
def slope (ys : List ℚ) : ℚ :=
  ((ys.length : ℚ) * sumXY ys - sumX ys.length * sumY ys) /
    ((ys.length : ℚ) * sumXX ys.length - sumX ys.length ^ 2)

/-- The OLS intercept `b` of `y` against indices `0..n-1` (closed form). -/
def intercept (ys : List ℚ) : ℚ :=
  (sumY ys - slope ys * sumX ys.length) / (ys.length : ℚ)

/-- Sum of squared residuals of the line `a·i + b` on the data `ys`. -/
def olsSSE (a b : ℚ) (ys : List ℚ) : ℚ :=
  ∑ i in Finset.range ys.length, (ys.getD i 0 - (a * i + b)) ^ 2

/-- `predict_next_month(monthly_df)`: `0` when fewer than two buckets,
otherwise the fitted line evaluated at index `n` (one past the last
observed index), rounded to two decimals.  Takes the `total_expense`
column, in bucket order. -/
def predict_next_month (ys : List ℚ) : ℚ :=
  if ys.length < 2 then 0
  else round2 (slope ys * (ys.length : ℚ) + intercept ys)

end FMS

namespace FMS

/-! ## The dashboard sections of `app.py` below the charts

The script renders sections in order; an uncaught exception aborts the run
at that point, so the whole pass is embedded as an `Except`: `.error`
models the run dying mid-render, `.ok` a run that reached the end. -/

/-- `expense_df.groupby(k)["amount"].sum().abs()` for a string-keyed
column: one `(key, |sum of the group's amounts|)` pair per distinct key.
pandas lists groups in sorted key order; no property below depends on the
order of these string-keyed groups, so first-occurrence order is kept. -/
def groupAbsSum (key : Row → String) (rows : List Row) : List (String × ℚ) :=
  ((rows.map key).dedup).map
    (fun k => (k, |((rows.filter (fun r => key r = k)).map Row.amount).sum|))

/-- `cat_sum`: spending by category (computed only when the `category`
column exists). -/
def cat_sum (t : Table) : List (String × ℚ) :=
  groupAbsSum Row.category (expense_df t)

/-- `expense_df.groupby(["merchant", "abs_amount"]).size()`: occurrence
count per distinct `(merchant, |amount|)` pair. -/
def recurringSizes (rows : List Row) : List ((String × ℚ) × ℕ) :=
  ((rows.map (fun r => (r.merchant, |r.amount|))).dedup).map
    (fun k => (k, (rows.filter (fun r => (r.merchant, |r.amount|) = k)).length))

/-- `recurring = recurring[recurring["count"] >= 3]`. -/
def recurringAlerts (rows : List Row) : List ((String × ℚ) × ℕ) :=
  (recurringSizes rows).filter (fun g => 3 ≤ g.2)

/-- The spending-spike section's outcome. -/
inductive SpikeFlag
  | spike
  | reduction
deriving DecidableEq

/-- Spending spike check on the `monthly` totals: with at least two
buckets, `last > prev * 1.25` flags a spike and `last < prev * 0.75` a
reduction. -/
def spikeOf (mon : List (Month × ℚ)) : Option SpikeFlag :=
  if mon.length < 2 then none
  else
    let last := (mon.map Prod.snd).getD (mon.length - 1) 0
    let prev := (mon.map Prod.snd).getD (mon.length - 2) 0
    if last > prev * (5 / 4) then some .spike
    else if last < prev * (3 / 4) then some .reduction
    else none

/-- The financial-health classification of `savings / total_income`
(evaluated only when `total_income > 0`). -/
def healthOf (income sav : ℚ) : ℕ × String :=
  let ratio := sav / income
  if ratio ≥ 3 / 10 then (90, "Excellent")
  else if ratio ≥ 2 / 10 then (75, "Good")
  else if ratio ≥ 1 / 10 then (50, "Average")
  else (30, "Poor")

/-- Everything the script hands to the presentation layer. -/
structure Results where
  totalIncome : ℚ
  totalExpenseAbs : ℚ
  netSavings : ℚ
  monthlyTable : List (Month × ℚ)
  prediction : Option ℚ
  categoryChart : Option (List (String × ℚ))
  merchantChart : Option (List (String × ℚ))
  recurring : Option (List ((String × ℚ) × ℕ))
  spike : Option SpikeFlag
  healthScore : Option (ℕ × String)
  budgetLimit : ℚ
  progress : ℚ
  overrun : Bool

/-- The whole post-upload pass of `app.py`, in script order.  The smart
intelligence block runs only when `expense_df` is non-empty; inside it the
recurring-payment `groupby(["merchant", "abs_amount"])` is **not** guarded
by `"merchant" in df.columns`, so a table without the merchant column (and
with at least one expense row) raises `KeyError` there and the sections
after it never render.  Budget limit, progress and the overrun flag follow
the budget-plan section verbatim.  (The top-5 selection inside the
merchant bar chart is presentation-only and kept as the full grouped
table; no property below reads it.) -/
def process (t : Table) : Except String Results :=
  let inc := total_income t
  let expAbs := total_expense_abs t
  let sav := inc - expAbs
  let mon := monthly t
  let pred := if 2 ≤ mon.length then some (predict_next_month (mon.map Prod.snd)) else none
  let cats := if t.hasCategory then some (cat_sum t) else none
  let merch := if t.hasMerchant then some (groupAbsSum Row.merchant (expense_df t)) else none
  let limit := inc * (7 / 10)
  let prog := if limit > 0 then max 0 (min (expAbs / limit) 1) else 0
  let over := decide (expAbs > limit)
  if (expense_df t).isEmpty then
    .ok ⟨inc, expAbs, sav, mon, pred, cats, merch, none, none, none, limit, prog, over⟩
  else if t.hasMerchant then
    .ok ⟨inc, expAbs, sav, mon, pred, cats, merch,
      some (recurringAlerts (expense_df t)), spikeOf mon,
      if inc > 0 then some (healthOf inc sav) else none, limit, prog, over⟩
  else
    .error "KeyError: merchant"

end FMS

namespace FMS

/-! ## Concrete tables used as counterexamples and witnesses -/

/-- Two same-month DEBIT rows with mixed-sign amounts. -/
def tMixed : Table :=
  ⟨[⟨some ⟨2024, 1, 5⟩, -100, "DEBIT", "", "m"⟩,
    ⟨some ⟨2024, 1, 20⟩, 50, "DEBIT", "", "m"⟩], false, true⟩

/-- A single DEBIT row of amount `-100`. -/
def tSingle : Table :=
  ⟨[⟨some ⟨2024, 1, 5⟩, -100, "DEBIT", "", "m"⟩], false, true⟩

end FMS

namespace FMS

/-! ## Claims about the trend predictor -/

/-- C3: with fewer than two buckets `predict_next_month` returns the
no-forecast sentinel `0` (and, being a total function of the bucket
totals, propagates no numeric error). -/
theorem C3_few_buckets_returns_zero (ys : List ℚ) (h : ys.length < 2) :
    predict_next_month ys = 0 := by
  simp [predict_next_month, h]

/-- Witness for C3 at the one-bucket list `[5]`. -/
theorem C3_few_buckets_returns_zero_witness :
    ([(5 : ℚ)] : List ℚ).length < 2 ∧ predict_next_month [5] = 0 :=
  ⟨by norm_num, C3_few_buckets_returns_zero [5] (by norm_num)⟩

/-! ## Claims about the monthly aggregation -/

/-- C7: the bucket sequence `monthly` has strictly increasing (hence
pairwise distinct) month keys. -/
theorem C7_monthly_keys_strictly_ascending (t : Table) :
    List.Sorted (fun a b : Month => a < b) ((monthly t).map Prod.fst) ∧
      ((monthly t).map Prod.fst).Nodup := by
  have hkeys : (monthly t).map Prod.fst = monthKeys t := by
    simp only [monthly, List.map_map]
    exact List.map_id' _
  have hnodup : (monthKeys t).Nodup :=
    (List.perm_insertionSort _ _).nodup_iff.mpr (List.nodup_dedup _)
  have hsorted : List.Sorted (fun a b : Month => a ≤ b) (monthKeys t) :=
    List.sorted_insertionSort _ _
  rw [hkeys]
  exact ⟨hsorted.lt_of_le hnodup, hnodup⟩

end FMS

namespace FMS

/-! ## Claims about the smart-intelligence and budget sections -/

/-- C10: with no DEBIT rows the whole smart-intelligence block is skipped —
no health score, no recurring alerts, no spike flag — whatever the income. -/
theorem C10_no_expense_no_health_score (t : Table) (h : expense_df t = []) :
    ∃ r : Results, process t = Except.ok r ∧ r.healthScore = none ∧
      r.recurring = none ∧ r.spike = none := by
  unfold process
  rw [h]
  exact ⟨_, rfl, rfl, rfl, rfl⟩

/-- A table with one CREDIT row and no DEBIT row. -/
def tCreditOnly : Table :=
  ⟨[⟨some ⟨2024, 1, 1⟩, 100, "CREDIT", "", ""⟩], false, false⟩

/-- Witness for C10: positive income, no expenses, no score. -/
theorem C10_no_expense_no_health_score_witness :
    expense_df tCreditOnly = [] ∧ 0 < total_income tCreditOnly ∧
      (∃ r : Results, process tCreditOnly = Except.ok r ∧ r.healthScore = none ∧
        r.recurring = none ∧ r.spike = none) :=
  ⟨by norm_num +decide [expense_df, validRows, strUpper, tCreditOnly],
   by norm_num +decide [total_income, income_df, validRows, strUpper, tCreditOnly],
   C10_no_expense_no_health_score tCreditOnly
     (by norm_num +decide [expense_df, validRows, strUpper, tCreditOnly])⟩

/-- C8: the budget limit is 70 % of total income, the overrun flag is the
strict comparison `total_expense_abs > budget_limit` (equality is not
flagged), and the displayed progress is the ratio clamped to `[0, 1]`, or
`0` when the limit is not positive. -/
theorem C8_budget_rule (t : Table) (r : Results) (h : process t = Except.ok r) :
    r.budgetLimit = total_income t * (7 / 10) ∧
      (r.overrun = true ↔ total_income t * (7 / 10) < total_expense_abs t) ∧
      (total_expense_abs t = total_income t * (7 / 10) → r.overrun = false) ∧
      r.progress = (if 0 < total_income t * (7 / 10) then
        max 0 (min (total_expense_abs t / (total_income t * (7 / 10))) 1) else 0) := by
  unfold process at h
  by_cases hE : (expense_df t).isEmpty = true
  · rw [if_pos hE] at h
    cases h
    refine ⟨rfl, by simp [gt_iff_lt], ?_, rfl⟩
    intro heq
    simp [heq, gt_iff_lt, lt_irrefl]
  · rw [if_neg hE] at h
    by_cases hM : t.hasMerchant = true
    · rw [if_pos hM] at h
      cases h
      refine ⟨rfl, by simp [gt_iff_lt], ?_, rfl⟩
      intro heq
      simp [heq, gt_iff_lt, lt_irrefl]
    · rw [if_neg hM] at h
      cases h

/-- The empty upload. -/
def tEmpty : Table := ⟨[], false, false⟩

/-- Witness for C8 at the empty table (limit `0`, not flagged, progress `0`). -/
theorem C8_budget_rule_witness :
    ∃ r : Results, process tEmpty = Except.ok r ∧
      (r.budgetLimit = total_income tEmpty * (7 / 10) ∧
        (r.overrun = true ↔ total_income tEmpty * (7 / 10) < total_expense_abs tEmpty) ∧
        (total_expense_abs tEmpty = total_income tEmpty * (7 / 10) → r.overrun = false) ∧
        r.progress = (if 0 < total_income tEmpty * (7 / 10) then
          max 0 (min (total_expense_abs tEmpty / (total_income tEmpty * (7 / 10))) 1) else 0)) := by
  have h : process tEmpty = Except.ok
      ⟨0, 0, 0, [], none, none, none, none, none, none, 0, 0, false⟩ := by
    norm_num +decide [process, tEmpty, total_income, total_expense_abs, total_expense,
      income_df, expense_df, validRows, strUpper, monthly, monthKeys, monthTotal,
      List.insertionSort, List.dedup]
  exact ⟨_, h, C8_budget_rule tEmpty _ h⟩

end FMS

namespace FMS

/-- C9: whenever a run completes, income is positive and expenses exist,
the health score is the four-tier piecewise function of the savings ratio
`savings / income = (income − |expense|) / income`, with `≥ 0.30 → 90`
("Excellent"), `≥ 0.20 → 75` ("Good"), `≥ 0.10 → 50` ("Average") and
`30` ("Poor") otherwise; a ratio of exactly `0.30` scores `90` and any
ratio strictly below `0.10` scores `30`. -/
theorem C9_health_score_piecewise (t : Table) (r : Results)
    (h : process t = Except.ok r) (hinc : 0 < total_income t)
    (hexp : expense_df t ≠ []) :
    r.healthScore = some
      (if savings t / total_income t ≥ 3 / 10 then (90, "Excellent")
       else if savings t / total_income t ≥ 2 / 10 then (75, "Good")
       else if savings t / total_income t ≥ 1 / 10 then (50, "Average")
       else (30, "Poor")) ∧
    (savings t / total_income t = 3 / 10 → r.healthScore = some (90, "Excellent")) ∧
    (savings t / total_income t < 1 / 10 → r.healthScore = some (30, "Poor")) := by
  unfold process at h
  by_cases hE : (expense_df t).isEmpty = true
  · exact absurd (List.isEmpty_iff.mp hE) hexp
  · rw [if_neg hE] at h
    by_cases hM : t.hasMerchant = true
    · rw [if_pos hM] at h
      have hrec := Except.ok.inj h
      have hfield : r.healthScore = (if total_income t > 0 then
          some (healthOf (total_income t) (total_income t - total_expense_abs t)) else none) := by
        rw [← hrec]
      rw [if_pos (gt_iff_lt.mpr hinc)] at hfield
      have hmain : r.healthScore = some
          (if savings t / total_income t ≥ 3 / 10 then ((90 : ℕ), "Excellent")
           else if savings t / total_income t ≥ 2 / 10 then (75, "Good")
           else if savings t / total_income t ≥ 1 / 10 then (50, "Average")
           else (30, "Poor")) := by
        rw [hfield]
        rfl
      refine ⟨hmain, ?_, ?_⟩
      · intro hr
        rw [hmain, if_pos hr.ge]
      · intro hr
        rw [hmain, if_neg (not_le.mpr (by linarith)), if_neg (not_le.mpr (by linarith)),
          if_neg (not_le.mpr (by linarith))]
    · rw [if_neg hM] at h
      cases h

/-- A table with `100` of income and a single expense of `70`: savings
ratio exactly `0.30`. -/
def tRatio30 : Table :=
  ⟨[⟨some ⟨2024, 1, 1⟩, 100, "CREDIT", "", "m"⟩,
    ⟨some ⟨2024, 1, 2⟩, -70, "DEBIT", "", "m"⟩], false, true⟩

/-- Witness for C9 at the exact `0.30` boundary: score `90`/"Excellent". -/
theorem C9_health_score_piecewise_witness :
    ∃ r : Results, process tRatio30 = Except.ok r ∧ 0 < total_income tRatio30 ∧
      expense_df tRatio30 ≠ [] ∧ savings tRatio30 / total_income tRatio30 = 3 / 10 ∧
      r.healthScore = some (90, "Excellent") := by
  have h : process tRatio30 = Except.ok
      ⟨100, 70, 30, [(mkMonth 2024 1, 70)], none, none, some [("m", 70)], some [],
        none, some (90, "Excellent"), 70, 1, false⟩ := by
    norm_num +decide [process, tRatio30, total_income, total_expense_abs, total_expense,
      income_df, expense_df, validRows, strUpper, monthly, monthKeys, monthTotal,
      rowMonth, mkMonth, List.insertionSort, List.orderedInsert, List.dedup,
      List.pwFilter, groupAbsSum, recurringSizes, recurringAlerts, spikeOf, healthOf,
      cat_sum, predict_next_month]
  have hinc : 0 < total_income tRatio30 := by
    norm_num +decide [total_income, income_df, validRows, strUpper, tRatio30]
  have hexp : expense_df tRatio30 ≠ [] := by
    norm_num +decide [expense_df, validRows, strUpper, tRatio30]
  have hratio : savings tRatio30 / total_income tRatio30 = 3 / 10 := by
    norm_num +decide [savings, total_income, total_expense_abs, total_expense,
      income_df, expense_df, validRows, strUpper, tRatio30]
  refine ⟨_, h, hinc, hexp, hratio, ?_⟩
  exact (C9_health_score_piecewise tRatio30 _ h hinc hexp).2.1 hratio

end FMS

namespace FMS

/-- Summing absolute values commutes with summing when every element is
nonnegative. -/
theorem sum_map_abs_of_nonneg (l : List ℚ) (h : ∀ x ∈ l, 0 ≤ x) :
    (l.map (fun x => |x|)).sum = l.sum := by
  induction l with
  | nil => simp
  | cons a tl ih =>
    simp only [List.map_cons, List.sum_cons]
    rw [abs_of_nonneg (h a (by simp)), ih (fun x hx => h x (by simp [hx]))]

/-- Summing absolute values negates the sum when every element is
nonpositive. -/
theorem sum_map_abs_of_nonpos (l : List ℚ) (h : ∀ x ∈ l, x ≤ 0) :
    (l.map (fun x => |x|)).sum = -l.sum := by
  induction l with
  | nil => simp
  | cons a tl ih =>
    simp only [List.map_cons, List.sum_cons]
    rw [abs_of_nonpos (h a (by simp)), ih (fun x hx => h x (by simp [hx]))]
    ring

/-- C1 counterexample: in `tMixed` the single January 2024 bucket carries
`|(-100) + 50| = 50`, while the sum of the absolute amounts of that
month's DEBIT rows is `150`. -/
theorem C1_abs_of_sum_counterexample :
    (mkMonth 2024 1, (50 : ℚ)) ∈ monthly tMixed ∧
      (((expense_df tMixed).filter (fun r => rowMonth r = mkMonth 2024 1)).map
        (fun r => |r.amount|)).sum = 150 ∧ (50 : ℚ) ≠ 150 := by
  refine ⟨?_, ?_, by norm_num⟩
  · norm_num +decide [monthly, monthKeys, monthTotal, expense_df, validRows, strUpper,
      rowMonth, mkMonth, tMixed, List.insertionSort, List.orderedInsert, List.dedup,
      List.pwFilter]
  · norm_num +decide [expense_df, validRows, strUpper, rowMonth, mkMonth, tMixed]

/-- A list of nonpositive rationals has nonpositive sum. -/
theorem list_sum_nonpos (l : List ℚ) (h : ∀ x ∈ l, x ≤ 0) : l.sum ≤ 0 := by
  induction l with
  | nil => simp
  | cons a tl ih =>
    simp only [List.sum_cons]
    exact add_nonpos (h a (by simp)) (ih (fun x hx => h x (by simp [hx])))

/-- C1 amended: each bucket's `total_expense` is the **absolute value of
the sum** of that month's DEBIT amounts; when the amounts of the month all
share one sign this coincides with the sum of their absolute values (but
not when signs are mixed, as the counterexample shows). -/
theorem C1_bucket_total_is_abs_of_sum (t : Table) (m : Month) (tot : ℚ)
    (h : (m, tot) ∈ monthly t) :
    tot = |(((expense_df t).filter (fun r => rowMonth r = m)).map Row.amount).sum| ∧
      (((∀ r ∈ (expense_df t).filter (fun r => rowMonth r = m), 0 ≤ r.amount) ∨
        (∀ r ∈ (expense_df t).filter (fun r => rowMonth r = m), r.amount ≤ 0)) →
        tot = (((expense_df t).filter (fun r => rowMonth r = m)).map
          (fun r => |r.amount|)).sum) := by
  have htot : tot = monthTotal t m := by
    simp only [monthly, List.mem_map] at h
    obtain ⟨k, _, hk⟩ := h
    have h1 : k = m := congrArg Prod.fst hk
    have h2 : monthTotal t k = tot := congrArg Prod.snd hk
    rw [← h2, h1]
  refine ⟨htot, ?_⟩
  intro hsign
  rw [htot, monthTotal]
  have hmap : ((expense_df t).filter (fun r => rowMonth r = m)).map (fun r => |r.amount|) =
      (((expense_df t).filter (fun r => rowMonth r = m)).map Row.amount).map
        (fun x => |x|) := by
    rw [List.map_map]
    rfl
  rw [hmap]
  rcases hsign with hpos | hneg
  · rw [sum_map_abs_of_nonneg _ (fun x hx => ?_)]
    · rw [abs_of_nonneg]
      apply List.sum_nonneg
      intro x hx
      obtain ⟨r, hr, rfl⟩ := List.mem_map.mp hx
      exact hpos r hr
    · obtain ⟨r, hr, rfl⟩ := List.mem_map.mp hx
      exact hpos r hr
  · rw [sum_map_abs_of_nonpos _ (fun x hx => ?_)]
    · rw [abs_of_nonpos]
      apply list_sum_nonpos
      intro x hx
      obtain ⟨r, hr, rfl⟩ := List.mem_map.mp hx
      exact hneg r hr
    · obtain ⟨r, hr, rfl⟩ := List.mem_map.mp hx
      exact hneg r hr

/-- Witness for the amended C1 at the one-row table `tSingle`: the bucket
total is `|-100| = 100`, which is also the sum of absolute values. -/
theorem C1_bucket_total_is_abs_of_sum_witness :
    (mkMonth 2024 1, (100 : ℚ)) ∈ monthly tSingle ∧
      ((100 : ℚ) = |(((expense_df tSingle).filter
          (fun r => rowMonth r = mkMonth 2024 1)).map Row.amount).sum| ∧
        (((∀ r ∈ (expense_df tSingle).filter (fun r => rowMonth r = mkMonth 2024 1),
            0 ≤ r.amount) ∨
          (∀ r ∈ (expense_df tSingle).filter (fun r => rowMonth r = mkMonth 2024 1),
            r.amount ≤ 0)) →
          (100 : ℚ) = (((expense_df tSingle).filter
            (fun r => rowMonth r = mkMonth 2024 1)).map (fun r => |r.amount|)).sum)) := by
  have hmem : (mkMonth 2024 1, (100 : ℚ)) ∈ monthly tSingle := by
    norm_num +decide [monthly, monthKeys, monthTotal, expense_df, validRows, strUpper,
      rowMonth, mkMonth, tSingle, List.insertionSort, List.orderedInsert, List.dedup,
      List.pwFilter]
  exact ⟨hmem, C1_bucket_total_is_abs_of_sum tSingle (mkMonth 2024 1) 100 hmem⟩

end FMS

namespace FMS

/-- A table whose single row has a valid timestamp but type `TRANSFER`. -/
def tTransfer : Table :=
  ⟨[⟨some ⟨2024, 3, 1⟩, 5, "TRANSFER", "", ""⟩], false, false⟩

/-- C5 counterexample: a timestamp-valid `TRANSFER` row is in neither
subset, so the union of `income_df` and `expense_df` is **not** the whole
timestamp-valid subset. -/
theorem C5_union_counterexample :
    (⟨some ⟨2024, 3, 1⟩, 5, "TRANSFER", "", ""⟩ : Row) ∈ validRows tTransfer ∧
      income_df tTransfer = [] ∧ expense_df tTransfer = [] := by
  refine ⟨?_, ?_, ?_⟩
  · norm_num +decide [validRows, tTransfer]
  · norm_num +decide [income_df, validRows, strUpper, tTransfer]
  · norm_num +decide [expense_df, validRows, strUpper, tTransfer]

/-- C5 amended: `income_df` and `expense_df` are disjoint, and their union
is the set of timestamp-valid rows whose uppercased type is `CREDIT` or
`DEBIT` (timestamp-valid rows of any other type are in neither subset). -/
theorem C5_split_partition (t : Table) (r : Row) :
    ¬(r ∈ income_df t ∧ r ∈ expense_df t) ∧
      ((r ∈ income_df t ∨ r ∈ expense_df t) ↔
        r ∈ validRows t ∧ (strUpper r.type = "CREDIT" ∨ strUpper r.type = "DEBIT")) := by
  constructor
  · rintro ⟨hi, he⟩
    rw [income_df, List.mem_filter, decide_eq_true_eq] at hi
    rw [expense_df, List.mem_filter, decide_eq_true_eq] at he
    have : ("CREDIT" : String) = "DEBIT" := hi.2 ▸ he.2
    simp at this
  · rw [income_df, expense_df, List.mem_filter, List.mem_filter,
      decide_eq_true_eq, decide_eq_true_eq]
    constructor
    · rintro (⟨hv, hty⟩ | ⟨hv, hty⟩)
      · exact ⟨hv, Or.inl hty⟩
      · exact ⟨hv, Or.inr hty⟩
    · rintro ⟨hv, hty | hty⟩
      · exact Or.inl ⟨hv, hty⟩
      · exact Or.inr ⟨hv, hty⟩

/-- A table with the `category` column but no `merchant` column, holding
one DEBIT row. -/
def tNoMerchant : Table :=
  ⟨[⟨some ⟨2024, 1, 1⟩, -50, "DEBIT", "Food", ""⟩], true, false⟩

/-- C4: with at least one DEBIT row and no `merchant` column, the
unguarded `expense_df.groupby(["merchant", "abs_amount"])` in the
smart-intelligence block raises `KeyError`, so the run aborts instead of
skipping the merchant-dependent features. -/
theorem C4_missing_merchant_key_error :
    process tNoMerchant = Except.error "KeyError: merchant" := by
  norm_num +decide [process, tNoMerchant, expense_df, validRows, strUpper]

end FMS

namespace FMS

/-- Modelled from the spec: the category-concentration insight of §4.2 has
no implementation in the source files under review — `app.py` computes
`cat_sum` only to draw the pie chart (the spec's §9 open question refers
to a second near-duplicate source variant that carries the insight).  Per
the spec's rule: when category data is present and income is positive,
flag if the single largest category's expense exceeds 35 % of total
income, reporting the offending category and its percentage of income. -/
def concentrationFlag (t : Table) : Option (String × ℚ) :=
  if t.hasCategory = true ∧ 0 < total_income t then
    match (cat_sum t).argmax Prod.snd with
    | some p =>
        if (35 / 100) * total_income t < p.2 then
          some (p.1, p.2 / total_income t * 100)
        else none
    | none => none
  else none

/-- C6: with the category column present and positive income, the
concentration flag fires exactly when the largest category's aggregated
expense exceeds 35 % of total income, and a fired flag carries that
category together with its percentage of income. -/
theorem C6_concentration_exactly_when (t : Table) (hc : t.hasCategory = true)
    (hi : 0 < total_income t) :
    ((concentrationFlag t).isSome = true ↔
      ∃ p ∈ cat_sum t, (35 / 100) * total_income t < p.2 ∧
        ∀ q ∈ cat_sum t, q.2 ≤ p.2) ∧
    (∀ c pct, concentrationFlag t = some (c, pct) →
      ∃ v, (c, v) ∈ cat_sum t ∧ (35 / 100) * total_income t < v ∧
        pct = v / total_income t * 100) := by
  rw [concentrationFlag, if_pos ⟨hc, hi⟩]
  cases harg : (cat_sum t).argmax Prod.snd with
  | none =>
    have hnil : cat_sum t = [] := List.argmax_eq_none.mp harg
    constructor
    · simp [hnil]
    · intro c pct hcp
      simp at hcp
  | some p =>
    dsimp only
    have hpmem : p ∈ (cat_sum t).argmax Prod.snd := Option.mem_def.mpr harg
    by_cases hgt : (35 / 100) * total_income t < p.2
    · rw [if_pos hgt]
      constructor
      · constructor
        · intro _
          exact ⟨p, List.argmax_mem hpmem, hgt,
            fun q hq => List.le_of_mem_argmax hq hpmem⟩
        · intro _
          rfl
      · intro c pct hcp
        have hc1 : p.1 = c := congrArg Prod.fst (Option.some.inj hcp)
        have hc2 : p.2 / total_income t * 100 = pct :=
          congrArg Prod.snd (Option.some.inj hcp)
        refine ⟨p.2, ?_, hgt, hc2.symm⟩
        rw [← hc1, Prod.mk.eta]
        exact List.argmax_mem hpmem
    · rw [if_neg hgt]
      constructor
      · constructor
        · intro habs
          simp at habs
        · rintro ⟨q, hqmem, hq35, _⟩
          exact absurd (lt_of_lt_of_le hq35 (List.le_of_mem_argmax hqmem hpmem)) hgt
      · intro c pct hcp
        simp at hcp

/-- A table with `100` of income and a `40` Food expense: the largest
category takes 40 % > 35 % of income. -/
def tConcentrated : Table :=
  ⟨[⟨some ⟨2024, 1, 1⟩, 100, "CREDIT", "", ""⟩,
    ⟨some ⟨2024, 1, 2⟩, -40, "DEBIT", "Food", ""⟩], true, false⟩

/-- Witness for C6 at `tConcentrated`. -/
theorem C6_concentration_exactly_when_witness :
    tConcentrated.hasCategory = true ∧ 0 < total_income tConcentrated ∧
      (((concentrationFlag tConcentrated).isSome = true ↔
        ∃ p ∈ cat_sum tConcentrated, (35 / 100) * total_income tConcentrated < p.2 ∧
          ∀ q ∈ cat_sum tConcentrated, q.2 ≤ p.2) ∧
      (∀ c pct, concentrationFlag tConcentrated = some (c, pct) →
        ∃ v, (c, v) ∈ cat_sum tConcentrated ∧
          (35 / 100) * total_income tConcentrated < v ∧
          pct = v / total_income tConcentrated * 100)) := by
  have hi : 0 < total_income tConcentrated := by
    norm_num +decide [total_income, income_df, validRows, strUpper, tConcentrated]
  exact ⟨rfl, hi, C6_concentration_exactly_when tConcentrated rfl hi⟩

end FMS

namespace FMS

/-- Folding lemma: the literal index sum is `sumX`. -/
theorem sumX_def (n : ℕ) : ∑ i in Finset.range n, (i : ℚ) = sumX n := rfl

/-- Folding lemma: the literal index-square sum is `sumXX`. -/
theorem sumXX_def (n : ℕ) : ∑ i in Finset.range n, (i : ℚ) ^ 2 = sumXX n := rfl

/-- Folding lemma: the literal data sum is `sumY`. -/
theorem sumY_def (ys : List ℚ) :
    ∑ i in Finset.range ys.length, ys.getD i 0 = sumY ys := rfl

/-- Folding lemma: the literal index-weighted data sum is `sumXY`. -/
theorem sumXY_def (ys : List ℚ) :
    ∑ i in Finset.range ys.length, (i : ℚ) * ys.getD i 0 = sumXY ys := rfl

/-- Closed form of the regressor sum: `Σ_{i<n} i = n(n−1)/2`. -/
theorem sumX_eq (n : ℕ) : sumX n = (n : ℚ) * ((n : ℚ) - 1) / 2 := by
  induction n with
  | zero => simp [sumX]
  | succ k ih =>
    rw [sumX, Finset.sum_range_succ, ← sumX, ih]
    push_cast
    ring

/-- Closed form of the regressor square sum: `Σ_{i<n} i² = n(n−1)(2n−1)/6`. -/
theorem sumXX_eq (n : ℕ) :
    sumXX n = (n : ℚ) * ((n : ℚ) - 1) * (2 * (n : ℚ) - 1) / 6 := by
  induction n with
  | zero => simp [sumXX]
  | succ k ih =>
    rw [sumXX, Finset.sum_range_succ, ← sumXX, ih]
    push_cast
    ring

/-- The OLS denominator `n·Σi² − (Σi)²` equals `n²(n²−1)/12`. -/
theorem olsDenom_eq (n : ℕ) :
    (n : ℚ) * sumXX n - sumX n ^ 2 = (n : ℚ) ^ 2 * ((n : ℚ) ^ 2 - 1) / 12 := by
  rw [sumX_eq, sumXX_eq]
  ring

/-- With at least two data points the OLS denominator is positive (the
design is nondegenerate). -/
theorem olsDenom_pos (n : ℕ) (h : 2 ≤ n) :
    0 < (n : ℚ) * sumXX n - sumX n ^ 2 := by
  rw [olsDenom_eq]
  have h2 : (2 : ℚ) ≤ (n : ℚ) := by exact_mod_cast h
  have h4 : (4 : ℚ) ≤ (n : ℚ) ^ 2 := by nlinarith
  apply div_pos
  · apply mul_pos
    · nlinarith
    · nlinarith
  · norm_num

/-- First normal equation: the residuals of the closed-form fit sum to 0. -/
theorem sum_residual (ys : List ℚ) (h : 2 ≤ ys.length) :
    ∑ i in Finset.range ys.length,
      (ys.getD i 0 - (slope ys * i + intercept ys)) = 0 := by
  have hn : ((ys.length : ℚ)) ≠ 0 := Nat.cast_ne_zero.mpr (by omega)
  rw [Finset.sum_sub_distrib, Finset.sum_add_distrib, ← Finset.mul_sum,
    Finset.sum_const, Finset.card_range, nsmul_eq_mul]
  rw [sumY_def, sumX_def, intercept]
  field_simp

/-- Second normal equation: the index-weighted residuals of the
closed-form fit sum to 0. -/
theorem sum_weighted_residual (ys : List ℚ) (h : 2 ≤ ys.length) :
    ∑ i in Finset.range ys.length,
      (i : ℚ) * (ys.getD i 0 - (slope ys * i + intercept ys)) = 0 := by
  have hn : ((ys.length : ℚ)) ≠ 0 := Nat.cast_ne_zero.mpr (by omega)
  have hD : ((ys.length : ℚ) * sumXX ys.length - sumX ys.length ^ 2) ≠ 0 :=
    ne_of_gt (olsDenom_pos ys.length h)
  have hexp : ∀ i : ℕ, (i : ℚ) * (ys.getD i 0 - (slope ys * i + intercept ys)) =
      (i : ℚ) * ys.getD i 0 - (slope ys * (i : ℚ) ^ 2 + intercept ys * i) := by
    intro i
    ring
  rw [Finset.sum_congr rfl (fun i _ => hexp i), Finset.sum_sub_distrib,
    Finset.sum_add_distrib, ← Finset.mul_sum, ← Finset.mul_sum]
  rw [sumXY_def, sumXX_def, sumX_def, intercept, slope]
  field_simp
  ring

/-- Exact decomposition of the sum of squared errors of an arbitrary line
around the closed-form fit. -/
theorem olsSSE_decomp (ys : List ℚ) (h : 2 ≤ ys.length) (a b : ℚ) :
    olsSSE a b ys = olsSSE (slope ys) (intercept ys) ys
      + ((slope ys - a) ^ 2 * sumXX ys.length
        + 2 * (slope ys - a) * (intercept ys - b) * sumX ys.length
        + (intercept ys - b) ^ 2 * (ys.length : ℚ)) := by
  have hpt : ∀ i : ℕ, (ys.getD i 0 - (a * i + b)) ^ 2
      = (ys.getD i 0 - (slope ys * i + intercept ys)) ^ 2
        + ((slope ys - a) * i + (intercept ys - b)) ^ 2
        + 2 * ((slope ys - a) * i + (intercept ys - b))
            * (ys.getD i 0 - (slope ys * i + intercept ys)) := by
    intro i
    ring
  rw [olsSSE, Finset.sum_congr rfl (fun i _ => hpt i), Finset.sum_add_distrib,
    Finset.sum_add_distrib]
  have hmid : ∑ i in Finset.range ys.length,
      ((slope ys - a) * i + (intercept ys - b)) ^ 2
      = (slope ys - a) ^ 2 * sumXX ys.length
        + 2 * (slope ys - a) * (intercept ys - b) * sumX ys.length
        + (intercept ys - b) ^ 2 * (ys.length : ℚ) := by
    have hpt2 : ∀ i : ℕ, ((slope ys - a) * i + (intercept ys - b)) ^ 2
        = (slope ys - a) ^ 2 * (i : ℚ) ^ 2
          + 2 * (slope ys - a) * (intercept ys - b) * i
          + (intercept ys - b) ^ 2 := by
      intro i
      ring
    rw [Finset.sum_congr rfl (fun i _ => hpt2 i), Finset.sum_add_distrib,
      Finset.sum_add_distrib, ← Finset.mul_sum, ← Finset.mul_sum,
      Finset.sum_const, Finset.card_range, nsmul_eq_mul]
    rw [sumXX_def, sumX_def]
    ring
  have hcross : ∑ i in Finset.range ys.length,
      2 * ((slope ys - a) * i + (intercept ys - b))
        * (ys.getD i 0 - (slope ys * i + intercept ys)) = 0 := by
    have hpt3 : ∀ i : ℕ, 2 * ((slope ys - a) * i + (intercept ys - b))
        * (ys.getD i 0 - (slope ys * i + intercept ys))
        = 2 * (slope ys - a)
            * ((i : ℚ) * (ys.getD i 0 - (slope ys * i + intercept ys)))
          + 2 * (intercept ys - b)
            * (ys.getD i 0 - (slope ys * i + intercept ys)) := by
      intro i
      ring
    rw [Finset.sum_congr rfl (fun i _ => hpt3 i), Finset.sum_add_distrib,
      ← Finset.mul_sum, ← Finset.mul_sum, sum_residual ys h,
      sum_weighted_residual ys h]
    ring
  rw [hmid, hcross, olsSSE]
  ring

/-- C2: with at least two buckets the predictor returns the genuine
ordinary-least-squares fit — the closed-form coefficients minimise the sum
of squared residuals over all lines — evaluated one index past the data
and rounded to two decimals; on the totals `[100, 200, 300]` it returns
exactly `400`. -/
theorem C2_predictor_is_rounded_ols (ys : List ℚ) (h : 2 ≤ ys.length) :
    (∀ a b : ℚ, olsSSE (slope ys) (intercept ys) ys ≤ olsSSE a b ys) ∧
      predict_next_month ys = round2 (slope ys * (ys.length : ℚ) + intercept ys) ∧
      predict_next_month [100, 200, 300] = 400 := by
  refine ⟨?_, ?_, ?_⟩
  · intro a b
    rw [olsSSE_decomp ys h a b]
    have hD := olsDenom_pos ys.length h
    have hn : (0 : ℚ) < (ys.length : ℚ) := by
      exact_mod_cast (by omega : 0 < ys.length)
    nlinarith [sq_nonneg ((ys.length : ℚ) * (intercept ys - b)
        + (slope ys - a) * sumX ys.length),
      mul_nonneg (le_of_lt hD) (sq_nonneg (slope ys - a)), hn,
      sq_nonneg (slope ys - a), sq_nonneg (intercept ys - b)]
  · rw [predict_next_month, if_neg (by omega)]
  · norm_num [predict_next_month, slope, intercept, sumX, sumXX, sumY, sumXY,
      round2, Finset.sum_range_succ]

/-- Witness for C2 at the spec's known sequence `[100, 200, 300]`. -/
theorem C2_predictor_is_rounded_ols_witness :
    2 ≤ ([100, 200, 300] : List ℚ).length ∧
      olsSSE (slope [100, 200, 300]) (intercept [100, 200, 300]) [100, 200, 300] ≤
        olsSSE 0 0 [100, 200, 300] ∧
      predict_next_month [100, 200, 300] =
        round2 (slope [100, 200, 300] * (([100, 200, 300] : List ℚ).length : ℚ) +
          intercept [100, 200, 300]) ∧
      predict_next_month [100, 200, 300] = 400 := by
  have h : 2 ≤ ([100, 200, 300] : List ℚ).length := by norm_num
  exact ⟨h, (C2_predictor_is_rounded_ols [100, 200, 300] h).1 0 0,
    (C2_predictor_is_rounded_ols [100, 200, 300] h).2.1,
    (C2_predictor_is_rounded_ols [100, 200, 300] h).2.2⟩

end FMS
